import Mathlib

/-!
# QuMADA measurement core, shallowly embedded

A Lean embedding of the measurement-orchestration core of the QuMADA
repository: the classification / sweep-building state machine of
`MeasurementScript.initialize` and `MeasurementScript.reset`
(`src/qtools/measurement/measurement.py`), the buffered point-count
resolution `_set_buffered_num_points`, the hook wrapper `create_hook`,
the buffer readout `readout_buffers`, and the two concrete buffer
implementations `SR830Buffer` and `MFLIBuffer`
(`src/qtools/instrument/buffer.py`).

Python dictionaries of per-parameter properties become records of
`Option` fields; a missing key raised as `KeyError` is an explicit
error value, so `try/except KeyError` becomes a catch on that error
constructor only.  Channel values are rationals.
-/

namespace QuMADA

/-- Python exceptions that the embedded code can raise and that its
control flow distinguishes: `KeyError key` from a missing dictionary
key, `IndexError` from indexing an empty sequence, and
`AttributeError` from reading the never-assigned
`buffered_num_points` attribute. -/
inductive PyErr where
  | keyError (key : String)
  | indexError
  | attrError
  deriving DecidableEq, Repr

/-- Dictionary access `d[key]`: the value if the key is present,
`KeyError key` otherwise. -/
def getKey (o : Option α) (key : String) : Except PyErr α :=
  match o with
  | some v => .ok v
  | none => .error (.keyError key)

/-- Python `try: ... except KeyError: ...` — the handler fires on a
`KeyError` and on nothing else. -/
def catchKeyError (x : Except PyErr α) (handler : Unit → Except PyErr α) :
    Except PyErr α :=
  match x with
  | .error (.keyError _) => handler ()
  | other => other

/-- Role membership test `properties[...]["type"].find(role) >= 0`:
Python `str.find` returns a non-negative index exactly when `role`
occurs as a substring of the type text. -/
def hasRole (tp role : String) : Bool :=
  decide (List.IsInfix role.toList tp.toList)

/-- The per-parameter property declaration handed to `setup`: the free
role text under `"type"` plus the optional value / trajectory /
timing / break-condition keys the classifier inspects. -/
structure Props where
  type : String
  value : Option ℚ := none
  start : Option ℚ := none
  stop : Option ℚ := none
  num_points : Option ℕ := none
  setpoints : Option (List ℚ) := none
  delay : Option ℚ := none
  break_conditions : Option (List String) := none
  deriving DecidableEq, Repr

/-- One (gate, parameter, channel) triple of `gate_parameters`,
together with the matching `properties[gate][parameter]` record.
Channels are identified by a numeric id. -/
structure Entry where
  gate : String
  parameter : String
  channel : ℕ
  props : Props
  deriving DecidableEq, Repr

/-! ## Buffered point-count resolution (`_set_buffered_num_points`) -/

/-- The flat `buffer_settings` mapping, restricted to the keys that
`_set_buffered_num_points` inspects. -/
structure BufferSettings where
  num_points : Option ℕ := none
  sampling_rate : Option ℚ := none
  burst_duration : Option ℚ := none
  deriving DecidableEq, Repr

/-- `MeasurementScript._set_buffered_num_points`: raises when
`sampling_rate`, `burst_duration` and `num_points` are all present;
otherwise a truthy `num_points` wins; otherwise the pair
`(sampling_rate, burst_duration)` yields `ceil(rate * duration)`;
otherwise the buffered point count stays unset (`none`). -/
def setBufferedNumPoints (bs : BufferSettings) : Except String (Option ℕ) :=
  if bs.sampling_rate.isSome && bs.burst_duration.isSome && bs.num_points.isSome then
    .error "You cannot define sampling_rate, burst_duration and num_points at the same time"
  else if bs.num_points.getD 0 ≠ 0 then
    .ok (some (bs.num_points.getD 0))
  else if bs.sampling_rate.isSome && bs.burst_duration.isSome then
    .ok (some (⌈bs.sampling_rate.getD 0 * bs.burst_duration.getD 0⌉.toNat))
  else
    .ok none

example : setBufferedNumPoints ⟨some 5, some 10, none⟩ = .ok (some 5) := rfl
example : setBufferedNumPoints ⟨none, some 10, some 2⟩ = .ok (some 20) := by
  simp only [setBufferedNumPoints]
  norm_num
  decide
example : setBufferedNumPoints ⟨some 0, some 10, none⟩ = .ok none := rfl

/-! ## The initial-setpoint priority chain -/

/-- The nested `try/except KeyError` ladder shared by `initialize` and
`reset` for a dynamic parameter: ramp to `value` if present, else to
`start` if present, else to `setpoints[0]`; a missing `setpoints` key
is the final, uncaught `KeyError`, and an empty `setpoints` sequence
is an `IndexError`. -/
def chainResolve (p : Props) : Except PyErr ℚ :=
  catchKeyError (getKey p.value "value") fun _ =>
    catchKeyError (getKey p.start "start") fun _ => do
      let sp ← getKey p.setpoints "setpoints"
      match sp.head? with
      | some v => .ok v
      | none => .error .indexError

/-! ## Sweep generation -/

/-- A generated sweep: `LinSweep(channel, start, stop, num_points,
delay)` or `CustomSweep(channel, setpoints, delay)` from
`measurement.py`. -/
inductive SweepSpec where
  | lin (channel : ℕ) (start stop : ℚ) (numPoints : ℕ) (delay : ℚ)
  | custom (channel : ℕ) (setpoints : List ℚ) (delay : ℚ)
  deriving DecidableEq, Repr

/-- The channel a sweep drives. -/
def SweepSpec.channel : SweepSpec → ℕ
  | .lin ch _ _ _ _ => ch
  | .custom ch _ _ => ch

/-- The point count of a sweep: the stored count of a `LinSweep`, the
setpoint-sequence length of a `CustomSweep`. -/
def SweepSpec.numPoints : SweepSpec → ℕ
  | .lin _ _ _ n _ => n
  | .custom _ sp _ => sp.length

/-- Reading the `buffered_num_points` attribute: an `AttributeError`
when `_set_buffered_num_points` never assigned it. -/
def getBnp (o : Option ℕ) : Except PyErr ℕ :=
  match o with
  | some n => .ok n
  | none => .error .attrError

/-- Python `seq[0]`: `IndexError` on an empty sequence. -/
def headE (l : List ℚ) : Except PyErr ℚ :=
  match l.head? with
  | some a => .ok a
  | none => .error .indexError

/-- Python `seq[-1]`: `IndexError` on an empty sequence. -/
def lastE (l : List ℚ) : Except PyErr ℚ :=
  match l.getLast? with
  | some a => .ok a
  | none => .error .indexError

/-- Sweep construction for one dynamic parameter, following the
buffered / unbuffered branch of `initialize`.  Python evaluates the
`LinSweep` arguments left to right, so in the buffered `try` branch a
`KeyError` can arise from `start`, `stop` or `delay` (in that order)
and the unset `buffered_num_points` attribute surfaces as an
`AttributeError` that the `except KeyError` does not catch; the
`except` branch reads `setpoints[0]`, `setpoints[-1]` and defaults
the delay to `0` via `setdefault`. -/
def buildSweep (buffered : Bool) (bnp : Option ℕ) (p : Props) (ch : ℕ) :
    Except PyErr SweepSpec :=
  if buffered then
    catchKeyError
      (do
        let a ← getKey p.start "start"
        let b ← getKey p.stop "stop"
        let n ← getBnp bnp
        let d ← getKey p.delay "delay"
        .ok (.lin ch a b n d))
      (fun _ => do
        let sp ← getKey p.setpoints "setpoints"
        let a ← headE sp
        let b ← lastE sp
        let n ← getBnp bnp
        .ok (.lin ch a b n (p.delay.getD 0)))
  else
    catchKeyError
      (do
        let a ← getKey p.start "start"
        let b ← getKey p.stop "stop"
        let n ← getKey p.num_points "num_points"
        let d ← getKey p.delay "delay"
        .ok (.lin ch a b n d))
      (fun _ => do
        let sp ← getKey p.setpoints "setpoints"
        .ok (.custom ch sp (p.delay.getD 0)))

/-! ## The `initialize` state machine -/

/-- The transient collections `initialize` rebuilds on every call:
the three role partitions, the gettable-channel and break-condition
lists, the sweep plan, and the ordered list of `(channel, target)`
ramps issued while classifying. -/
structure InitState where
  static_parameters : List (String × String) := []
  gettable_parameters : List (String × String) := []
  gettable_channels : List ℕ := []
  break_conditions : List (ℕ × String) := []
  dynamic_parameters : List (String × String) := []
  dynamic_channels : List ℕ := []
  dynamic_sweeps : List SweepSpec := []
  ramps : List (ℕ × ℚ) := []
  deriving DecidableEq, Repr

/-- The independent `static` branch of the `initialize` loop body: it
resolves `value` (a missing key is an uncaught `KeyError`), ramps to
it twice — the source repeats the `ramp_or_set_parameter` call — and
records the parameter in the static partition. -/
def initStaticBranch (s : InitState) (e : Entry) : Except PyErr InitState :=
  if hasRole e.props.type "static" then do
    let v ← getKey e.props.value "value"
    pure { s with
      ramps := s.ramps ++ [(e.channel, v), (e.channel, v)],
      static_parameters := s.static_parameters ++ [(e.gate, e.parameter)] }
  else pure s

/-- The gettable-or-else-dynamic dispatch of the `initialize` loop
body: the `gettable` branch records the parameter, its channel, and —
under `suppress(KeyError)` — its break conditions; only if the role
is not gettable, the `dynamic` branch ramps to the priority-chain
target, records the parameter and channel, and generates the sweep. -/
def initRoleBranch (buffered : Bool) (bnp : Option ℕ) (s : InitState) (e : Entry) :
    Except PyErr InitState :=
  let p := e.props
  if hasRole p.type "gettable" then
    let contributed := match p.break_conditions with
      | some conds => conds.map fun c => (e.channel, c)
      | none => []
    pure { s with
      gettable_parameters := s.gettable_parameters ++ [(e.gate, e.parameter)],
      gettable_channels := s.gettable_channels ++ [e.channel],
      break_conditions := s.break_conditions ++ contributed }
  else if hasRole p.type "dynamic" then do
    let tgt ← chainResolve p
    let s := { s with
      ramps := s.ramps ++ [(e.channel, tgt)],
      dynamic_parameters := s.dynamic_parameters ++ [(e.gate, e.parameter)],
      dynamic_channels := s.dynamic_channels ++ [e.channel] }
    let sw ← buildSweep buffered bnp p e.channel
    pure { s with dynamic_sweeps := s.dynamic_sweeps ++ [sw] }
  else
    pure s

/-- One loop iteration of `initialize` over a (gate, parameter,
channel) triple: the independent static branch, then the
gettable-or-else-dynamic dispatch. -/
def initStep (buffered : Bool) (bnp : Option ℕ) (s : InitState) (e : Entry) :
    Except PyErr InitState :=
  (initStaticBranch s e).bind fun s₁ => initRoleBranch buffered bnp s₁ e

/-- `MeasurementScript.initialize`, restricted to its classification
loop: fold `initStep` over the (gate, parameter, channel) triples in
declaration order, starting from freshly emptied collections. -/
def initializeScript (buffered : Bool) (bnp : Option ℕ) (entries : List Entry) :
    Except PyErr InitState :=
  entries.foldlM (initStep buffered bnp) {}

/-! ## The `reset` loop -/

/-- One loop iteration of `reset`: `static` ramps to `value`, and —
exclusively, via `elif` — `dynamic` ramps to the priority-chain
target.  Only ramps are issued; no collection is rebuilt. -/
def resetStep (rs : List (ℕ × ℚ)) (e : Entry) : Except PyErr (List (ℕ × ℚ)) := do
  let p := e.props
  if hasRole p.type "static" then do
    let v ← getKey p.value "value"
    pure (rs ++ [(e.channel, v)])
  else if hasRole p.type "dynamic" then do
    let tgt ← chainResolve p
    pure (rs ++ [(e.channel, tgt)])
  else
    pure rs

/-- The ordered `(channel, target)` ramps issued by
`MeasurementScript.reset`. -/
def resetRamps (entries : List Entry) : Except PyErr (List (ℕ × ℚ)) :=
  entries.foldlM resetStep []

/-- Apply a list of ramps, in order, to a channel valuation: each
ramp drives its channel to its target, later ramps overwrite earlier
ones. -/
def applyRamps (rs : List (ℕ × ℚ)) (v : ℕ → ℚ) : ℕ → ℚ :=
  rs.foldl (fun f r => fun c => if c = r.1 then r.2 else f c) v

/-! ## Per-entry contributions to the derived collections -/

/-- What one entry adds to the static partition. -/
def staticContrib (e : Entry) : List (String × String) :=
  if hasRole e.props.type "static" then [(e.gate, e.parameter)] else []

/-- What one entry adds to the gettable partition. -/
def gettableContrib (e : Entry) : List (String × String) :=
  if hasRole e.props.type "gettable" then [(e.gate, e.parameter)] else []

/-- What one entry adds to the dynamic partition: nothing when the
role is also gettable, because the `elif` only runs on the
not-gettable path. -/
def dynamicContrib (e : Entry) : List (String × String) :=
  if !hasRole e.props.type "gettable" && hasRole e.props.type "dynamic" then
    [(e.gate, e.parameter)]
  else []

/-- What one entry adds to the sweep plan on a successful
`initialize` run. -/
def sweepContrib (buffered : Bool) (bnp : Option ℕ) (e : Entry) : List SweepSpec :=
  if !hasRole e.props.type "gettable" && hasRole e.props.type "dynamic" then
    match buildSweep buffered bnp e.props e.channel with
    | .ok sw => [sw]
    | .error _ => []
  else []

/-- The ramps one entry issues during a successful `initialize` run:
the static branch ramps to `value` twice, the dynamic branch (not
reached on the gettable path) ramps to the priority-chain target. -/
def rampContrib (e : Entry) : List (ℕ × ℚ) :=
  (if hasRole e.props.type "static" then
    match e.props.value with
    | some v => [(e.channel, v), (e.channel, v)]
    | none => []
  else []) ++
  (if !hasRole e.props.type "gettable" && hasRole e.props.type "dynamic" then
    match chainResolve e.props with
    | .ok t => [(e.channel, t)]
    | .error _ => []
  else [])

/-- The ramp one entry issues during a successful `reset` run: the
static branch wins via `elif`, then the dynamic branch ramps to the
priority-chain target. -/
def resetContrib (e : Entry) : List (ℕ × ℚ) :=
  if hasRole e.props.type "static" then
    match e.props.value with
    | some v => [(e.channel, v)]
    | none => []
  else if hasRole e.props.type "dynamic" then
    match chainResolve e.props with
    | .ok t => [(e.channel, t)]
    | .error _ => []
  else []

/-- Inversion for a successful monadic bind in `Except`. -/
theorem exceptBind_ok {ε α β : Type} {x : Except ε α} {f : α → Except ε β} {v : β}
    (h : x >>= f = .ok v) : ∃ w, x = .ok w ∧ f w = .ok v := by
  cases x with
  | error err => exact absurd h (by simp [Bind.bind, Except.bind])
  | ok w => exact ⟨w, rfl, by simpa [Bind.bind, Except.bind] using h⟩

/-- A successful `initStep` extends every derived collection by
exactly the entry's contribution. -/
theorem initStep_ok_components {buffered : Bool} {bnp : Option ℕ} {s s' : InitState}
    {e : Entry} (h : initStep buffered bnp s e = .ok s') :
    s'.static_parameters = s.static_parameters ++ staticContrib e ∧
    s'.gettable_parameters = s.gettable_parameters ++ gettableContrib e ∧
    s'.dynamic_parameters = s.dynamic_parameters ++ dynamicContrib e ∧
    s'.dynamic_sweeps = s.dynamic_sweeps ++ sweepContrib buffered bnp e ∧
    s'.ramps = s.ramps ++ rampContrib e := by
  have h' : (initStaticBranch s e) >>= (fun s₁ => initRoleBranch buffered bnp s₁ e) =
      .ok s' := h
  obtain ⟨s₁, hs₁, hrole⟩ := exceptBind_ok h'
  have hcomp : s₁.static_parameters = s.static_parameters ++ staticContrib e ∧
      s₁.gettable_parameters = s.gettable_parameters ∧
      s₁.dynamic_parameters = s.dynamic_parameters ∧
      s₁.dynamic_sweeps = s.dynamic_sweeps ∧
      s₁.ramps = s.ramps ++ (if hasRole e.props.type "static" then
        match e.props.value with
        | some v => [(e.channel, v), (e.channel, v)]
        | none => []
      else []) := by
    by_cases hst : hasRole e.props.type "static"
    · cases hv : e.props.value with
      | none =>
        simp [initStaticBranch, hst, hv, getKey, Bind.bind, Except.bind] at hs₁
      | some v =>
        simp only [initStaticBranch, hst, if_true, hv, getKey, Bind.bind, Except.bind,
          Pure.pure, Except.pure, Except.ok.injEq] at hs₁
        subst hs₁
        simp [staticContrib, hst, hv]
    · simp only [initStaticBranch, hst, Bool.false_eq_true, if_false, Pure.pure,
        Except.pure, Except.ok.injEq] at hs₁
      subst hs₁
      simp [staticContrib, hst]
  obtain ⟨hc1, hc2, hc3, hc4, hc5⟩ := hcomp
  by_cases hget : hasRole e.props.type "gettable"
  · simp only [initRoleBranch, hget, if_true, Pure.pure, Except.pure, Except.ok.injEq]
      at hrole
    subst hrole
    refine ⟨hc1, ?_, ?_, ?_, ?_⟩ <;>
      simp [gettableContrib, dynamicContrib, sweepContrib, rampContrib, hget, hc2, hc3,
        hc4, hc5]
  · by_cases hdyn : hasRole e.props.type "dynamic"
    · simp only [initRoleBranch, hget, hdyn, Bool.false_eq_true, if_false, if_true]
        at hrole
      obtain ⟨t, ht, hrole⟩ := exceptBind_ok hrole
      obtain ⟨sw, hsw, hrole⟩ := exceptBind_ok hrole
      simp only [Pure.pure, Except.pure, Except.ok.injEq] at hrole
      subst hrole
      refine ⟨hc1, ?_, ?_, ?_, ?_⟩ <;>
        simp [gettableContrib, dynamicContrib, sweepContrib, rampContrib, hget, hdyn, hc2,
          hc3, hc4, hc5, ht, hsw]
    · simp only [initRoleBranch, hget, hdyn, Bool.false_eq_true, if_false, Pure.pure,
        Except.pure, Except.ok.injEq] at hrole
      subst hrole
      refine ⟨hc1, ?_, ?_, ?_, ?_⟩ <;>
        simp [gettableContrib, dynamicContrib, sweepContrib, rampContrib, hget, hdyn, hc2,
          hc3, hc4, hc5]

/-- Closed form for a successful classification fold: every derived
collection is the concatenation, in declaration order, of the
per-entry contributions. -/
theorem foldInit_ok {buffered : Bool} {bnp : Option ℕ} :
    ∀ (entries : List Entry) (s0 s' : InitState),
    entries.foldlM (initStep buffered bnp) s0 = .ok s' →
    s'.static_parameters = s0.static_parameters ++ entries.flatMap staticContrib ∧
    s'.gettable_parameters = s0.gettable_parameters ++ entries.flatMap gettableContrib ∧
    s'.dynamic_parameters = s0.dynamic_parameters ++ entries.flatMap dynamicContrib ∧
    s'.dynamic_sweeps = s0.dynamic_sweeps ++ entries.flatMap (sweepContrib buffered bnp) ∧
    s'.ramps = s0.ramps ++ entries.flatMap rampContrib
  | [], s0, s', h => by
    simp only [List.foldlM_nil, Pure.pure, Except.pure, Except.ok.injEq] at h
    subst h
    simp
  | e :: es, s0, s', h => by
    rw [List.foldlM_cons] at h
    obtain ⟨s₁, hs₁, hrest⟩ := exceptBind_ok h
    obtain ⟨c1, c2, c3, c4, c5⟩ := initStep_ok_components hs₁
    obtain ⟨d1, d2, d3, d4, d5⟩ := foldInit_ok es s₁ s' hrest
    simp [d1, d2, d3, d4, d5, c1, c2, c3, c4, c5]

/-- Closed form for a successful `initialize`. -/
theorem initializeScript_ok_components {buffered : Bool} {bnp : Option ℕ}
    {entries : List Entry} {s' : InitState}
    (h : initializeScript buffered bnp entries = .ok s') :
    s'.static_parameters = entries.flatMap staticContrib ∧
    s'.gettable_parameters = entries.flatMap gettableContrib ∧
    s'.dynamic_parameters = entries.flatMap dynamicContrib ∧
    s'.dynamic_sweeps = entries.flatMap (sweepContrib buffered bnp) ∧
    s'.ramps = entries.flatMap rampContrib := by
  simpa using foldInit_ok entries {} s' h

/-- A successful `resetStep` appends exactly the entry's reset
contribution. -/
theorem resetStep_ok_components {rs rs' : List (ℕ × ℚ)} {e : Entry}
    (h : resetStep rs e = .ok rs') : rs' = rs ++ resetContrib e := by
  by_cases hst : hasRole e.props.type "static"
  · cases hv : e.props.value with
    | none => simp [resetStep, hst, hv, getKey, Bind.bind, Except.bind] at h
    | some v =>
      simp only [resetStep, hst, if_true, hv, getKey, Bind.bind, Except.bind, Pure.pure,
        Except.pure, Except.ok.injEq] at h
      subst h
      simp [resetContrib, hst, hv]
  · by_cases hdyn : hasRole e.props.type "dynamic"
    · cases ht : chainResolve e.props with
      | error err =>
        simp [resetStep, hst, hdyn, ht, Bind.bind, Except.bind] at h
      | ok t =>
        simp only [resetStep, hst, hdyn, Bool.false_eq_true, if_false, if_true, ht,
          Bind.bind, Except.bind, Pure.pure, Except.pure, Except.ok.injEq] at h
        subst h
        simp [resetContrib, hst, hdyn, ht]
    · simp only [resetStep, hst, hdyn, Bool.false_eq_true, if_false, Pure.pure,
        Except.pure, Except.ok.injEq] at h
      subst h
      simp [resetContrib, hst, hdyn]

/-- Closed form for a successful reset fold. -/
theorem foldReset_ok : ∀ (entries : List Entry) (rs0 rs' : List (ℕ × ℚ)),
    entries.foldlM resetStep rs0 = .ok rs' →
    rs' = rs0 ++ entries.flatMap resetContrib
  | [], rs0, rs', h => by
    simp only [List.foldlM_nil, Pure.pure, Except.pure, Except.ok.injEq] at h
    subst h
    simp
  | e :: es, rs0, rs', h => by
    rw [List.foldlM_cons] at h
    obtain ⟨rs₁, hrs₁, hrest⟩ := exceptBind_ok h
    have hc := resetStep_ok_components hrs₁
    have hd := foldReset_ok es rs₁ rs' hrest
    simp [hd, hc]

/-- Closed form for a successful `reset`. -/
theorem resetRamps_ok_eq {entries : List Entry} {rs : List (ℕ × ℚ)}
    (h : resetRamps entries = .ok rs) : rs = entries.flatMap resetContrib := by
  simpa using foldReset_ok entries [] rs h

/-! ## Ramp application lemmas -/

theorem applyRamps_append (l₁ l₂ : List (ℕ × ℚ)) (v : ℕ → ℚ) :
    applyRamps (l₁ ++ l₂) v = applyRamps l₂ (applyRamps l₁ v) := by
  simp [applyRamps, List.foldl_append]

theorem applyRamps_notMem : ∀ (l : List (ℕ × ℚ)) (v : ℕ → ℚ) (c : ℕ),
    c ∉ l.map Prod.fst → applyRamps l v c = v c
  | [], _, _, _ => rfl
  | r :: l, v, c, h => by
    have hc : c ≠ r.1 := by
      intro hc
      exact h (by simp [hc])
    have htail : c ∉ l.map Prod.fst := fun hm => h (by simp [hm])
    calc applyRamps (r :: l) v c
        = applyRamps l (fun x => if x = r.1 then r.2 else v x) c := rfl
      _ = (fun x => if x = r.1 then r.2 else v x) c := applyRamps_notMem l _ c htail
      _ = v c := by simp [hc]

theorem applyRamps_single (c : ℕ) (x : ℚ) (v : ℕ → ℚ) :
    applyRamps [(c, x)] v c = x := by
  simp [applyRamps]

/-! ## Sweep-construction inversion lemmas -/

/-- Inversion for a successful `catchKeyError`. -/
theorem catchKeyError_ok {x : Except PyErr α} {hd : Unit → Except PyErr α} {v : α}
    (h : catchKeyError x hd = .ok v) : x = .ok v ∨ hd () = .ok v := by
  cases x with
  | error err => cases err <;> simp_all [catchKeyError]
  | ok w => simp_all [catchKeyError]

/-- Every sweep generated for an entry drives that entry's channel. -/
theorem buildSweep_ok_channel {buffered : Bool} {bnp : Option ℕ} {p : Props} {ch : ℕ}
    {sw : SweepSpec} (h : buildSweep buffered bnp p ch = .ok sw) : sw.channel = ch := by
  unfold buildSweep at h
  cases buffered with
  | true =>
    simp only [if_true] at h
    rcases catchKeyError_ok h with h | h
    · obtain ⟨a, _, h⟩ := exceptBind_ok h
      obtain ⟨b, _, h⟩ := exceptBind_ok h
      obtain ⟨n, _, h⟩ := exceptBind_ok h
      obtain ⟨d, _, h⟩ := exceptBind_ok h
      cases h
      rfl
    · obtain ⟨sp, _, h⟩ := exceptBind_ok h
      obtain ⟨a, _, h⟩ := exceptBind_ok h
      obtain ⟨b, _, h⟩ := exceptBind_ok h
      obtain ⟨n, _, h⟩ := exceptBind_ok h
      cases h
      rfl
  | false =>
    simp only [Bool.false_eq_true, if_false] at h
    rcases catchKeyError_ok h with h | h
    · obtain ⟨a, _, h⟩ := exceptBind_ok h
      obtain ⟨b, _, h⟩ := exceptBind_ok h
      obtain ⟨n, _, h⟩ := exceptBind_ok h
      obtain ⟨d, _, h⟩ := exceptBind_ok h
      cases h
      rfl
    · obtain ⟨sp, _, h⟩ := exceptBind_ok h
      cases h
      rfl

/-- In buffered mode, every successfully generated sweep is a
`LinSweep` whose point count is the globally resolved buffered point
count — never a parameter-local one. -/
theorem buildSweep_buffered_shape {bnp : Option ℕ} {p : Props} {ch : ℕ} {sw : SweepSpec}
    (h : buildSweep true bnp p ch = .ok sw) :
    ∃ a b n d, bnp = some n ∧ sw = .lin ch a b n d := by
  unfold buildSweep at h
  simp only [if_true] at h
  rcases catchKeyError_ok h with h | h
  · obtain ⟨a, _, h⟩ := exceptBind_ok h
    obtain ⟨b, _, h⟩ := exceptBind_ok h
    obtain ⟨n, hn, h⟩ := exceptBind_ok h
    obtain ⟨d, _, h⟩ := exceptBind_ok h
    cases h
    refine ⟨a, b, n, d, ?_, rfl⟩
    cases bnp <;> simp_all [getBnp]
  · obtain ⟨sp, _, h⟩ := exceptBind_ok h
    obtain ⟨a, _, h⟩ := exceptBind_ok h
    obtain ⟨b, _, h⟩ := exceptBind_ok h
    obtain ⟨n, hn, h⟩ := exceptBind_ok h
    cases h
    refine ⟨a, b, n, p.delay.getD 0, ?_, rfl⟩
    cases bnp <;> simp_all [getBnp]

/-- The buffered `try` branch: with `start`, `stop` and `delay` all
declared and the global count resolved, the sweep is the regular
trajectory from `start` to `stop` with the forced count. -/
theorem buildSweep_buffered_startStopDelay {p : Props} {ch n : ℕ} {a b d : ℚ}
    (ha : p.start = some a) (hb : p.stop = some b) (hd : p.delay = some d) :
    buildSweep true (some n) p ch = .ok (.lin ch a b n d) := by
  simp [buildSweep, catchKeyError, getKey, getBnp, ha, hb, hd, Bind.bind, Except.bind]

/-- The buffered `except` branch: if `start`, `stop` or `delay` is
missing, the trajectory endpoints come from the first and last
declared setpoints and the delay defaults to zero. -/
theorem buildSweep_buffered_fallback {p : Props} {ch n : ℕ} {l : List ℚ}
    (hmiss : p.start = none ∨ p.stop = none ∨ p.delay = none)
    (hsp : p.setpoints = some l) (hne : l ≠ []) :
    ∃ a b, l.head? = some a ∧ l.getLast? = some b ∧
      buildSweep true (some n) p ch = .ok (.lin ch a b n (p.delay.getD 0)) := by
  obtain ⟨a, ha⟩ : ∃ a, l.head? = some a := by
    cases l with
    | nil => exact absurd rfl hne
    | cons x xs => exact ⟨x, rfl⟩
  obtain ⟨b, hb⟩ : ∃ b, l.getLast? = some b := by
    cases hl : l.getLast? with
    | none => exact absurd (List.getLast?_eq_none_iff.mp hl) hne
    | some b => exact ⟨b, rfl⟩
  refine ⟨a, b, ha, hb, ?_⟩
  rcases hmiss with hm | hm | hm
  · simp [buildSweep, catchKeyError, getKey, getBnp, headE, lastE, hm, hsp, ha, hb,
      Bind.bind, Except.bind]
  · cases hstart : p.start <;>
      simp [buildSweep, catchKeyError, getKey, getBnp, headE, lastE, hstart, hm, hsp, ha,
        hb, Bind.bind, Except.bind]
  · cases hstart : p.start <;> cases hstop : p.stop <;>
      simp [buildSweep, catchKeyError, getKey, getBnp, headE, lastE, hstart, hstop, hm,
        hsp, ha, hb, Bind.bind, Except.bind]

/-! ## The aggregate measurement state and `reset` -/

/-- The aggregate state `reset` acts on: the channel valuation it
ramps, plus the derived collections, the buffer set and the
per-buffer subscription lists, which `reset` never mentions. -/
structure ScriptState where
  valuation : ℕ → ℚ
  collections : InitState
  buffers : List String
  subscriptions : List (String × List String)

/-- `MeasurementScript.reset` on the aggregate state: issue the
static/dynamic ramps and nothing else — no re-classification, no
re-subscription. -/
def resetScript (entries : List Entry) (st : ScriptState) : Except PyErr ScriptState :=
  (resetRamps entries).map fun rs => { st with valuation := applyRamps rs st.valuation }

/-! ## Membership lemmas for the contributions -/

/-- Anything in an entry's dynamic contribution is that entry's
identity, and the role is dynamic-but-not-gettable. -/
theorem dynamicContrib_mem {e : Entry} {x : String × String} (h : x ∈ dynamicContrib e) :
    hasRole e.props.type "gettable" = false ∧ hasRole e.props.type "dynamic" = true ∧
      x = (e.gate, e.parameter) := by
  unfold dynamicContrib at h
  by_cases hc : (!hasRole e.props.type "gettable" && hasRole e.props.type "dynamic") = true
  · simp only [hc, if_true, List.mem_singleton] at h
    simp only [Bool.and_eq_true, Bool.not_eq_true'] at hc
    exact ⟨hc.1, hc.2, h⟩
  · simp [hc] at h

/-- Anything in an entry's sweep contribution was built by
`buildSweep` for that entry's channel, on the
dynamic-but-not-gettable path. -/
theorem sweepContrib_mem {buffered : Bool} {bnp : Option ℕ} {e : Entry} {sw : SweepSpec}
    (h : sw ∈ sweepContrib buffered bnp e) :
    hasRole e.props.type "gettable" = false ∧ hasRole e.props.type "dynamic" = true ∧
      buildSweep buffered bnp e.props e.channel = .ok sw := by
  unfold sweepContrib at h
  by_cases hc : (!hasRole e.props.type "gettable" && hasRole e.props.type "dynamic") = true
  · simp only [hc, if_true] at h
    simp only [Bool.and_eq_true, Bool.not_eq_true'] at hc
    cases hb : buildSweep buffered bnp e.props e.channel with
    | error err => rw [hb] at h; simp at h
    | ok sw' =>
      rw [hb] at h
      simp only [List.mem_singleton] at h
      exact ⟨hc.1, hc.2, congrArg Except.ok h.symm⟩
  · simp [hc] at h

/-- Every ramp in an entry's reset contribution drives that entry's
channel. -/
theorem resetContrib_channel {e : Entry} {r : ℕ × ℚ} (h : r ∈ resetContrib e) :
    r.1 = e.channel := by
  unfold resetContrib at h
  by_cases hst : hasRole e.props.type "static"
  · cases hv : e.props.value with
    | none => simp [hst, hv] at h
    | some v => rw [if_pos hst, hv] at h; simp only [List.mem_singleton] at h; rw [h]
  · by_cases hdyn : hasRole e.props.type "dynamic"
    · cases ht : chainResolve e.props with
      | error err => simp [hst, hdyn, ht] at h
      | ok t =>
        rw [if_neg hst, if_pos hdyn, ht] at h
        simp only [List.mem_singleton] at h
        rw [h]
    · simp [hst, hdyn] at h

/-! ## Claim C1 -/

/-- C1: for every (gate, parameter) whose role text contains both
"dynamic" and "gettable", `initialize` classifies the parameter only
as gettable — it appears in the gettable partition, never in the
dynamic partition, and no sweep is appended for its channel — because
the gettable check is evaluated before (and shadows) the dynamic
check. -/
theorem claim1_gettable_tiebreak
    {buffered : Bool} {bnp : Option ℕ} {entries : List Entry} {s : InitState}
    (hok : initializeScript buffered bnp entries = .ok s)
    {e : Entry} (he : e ∈ entries)
    (hget : hasRole e.props.type "gettable" = true)
    (hdyn : hasRole e.props.type "dynamic" = true)
    (hids : (entries.map fun x => (x.gate, x.parameter)).Nodup)
    (hchs : (entries.map Entry.channel).Nodup) :
    (e.gate, e.parameter) ∈ s.gettable_parameters ∧
    (e.gate, e.parameter) ∉ s.dynamic_parameters ∧
    ∀ sw ∈ s.dynamic_sweeps, sw.channel ≠ e.channel := by
  obtain ⟨-, hG, hD, hS, -⟩ := initializeScript_ok_components hok
  refine ⟨?_, ?_, ?_⟩
  · rw [hG]
    exact List.mem_flatMap.mpr ⟨e, he, by simp [gettableContrib, hget]⟩
  · rw [hD]
    intro hmem
    obtain ⟨e', he', hc⟩ := List.mem_flatMap.mp hmem
    obtain ⟨hg', -, hx⟩ := dynamicContrib_mem hc
    have heq : e' = e := List.inj_on_of_nodup_map hids he' he hx.symm
    rw [heq] at hg'
    exact absurd (hget.symm.trans hg') (by decide)
  · intro sw hsw hch
    rw [hS] at hsw
    obtain ⟨e', he', hc⟩ := List.mem_flatMap.mp hsw
    obtain ⟨hg', -, hb⟩ := sweepContrib_mem hc
    have hcc : sw.channel = e'.channel := buildSweep_ok_channel hb
    have heq : e' = e := List.inj_on_of_nodup_map hchs he' he (hcc.symm.trans hch)
    rw [heq] at hg'
    exact absurd (hget.symm.trans hg') (by decide)

/-- A gate with a parameter tagged both dynamic and gettable, next to
an ordinary gettable parameter. -/
def entryDynGettable : Entry := ⟨"topgate", "voltage", 0, { type := "dynamic gettable" }⟩

/-- An ordinary gettable parameter on a second channel. -/
def entryGettable : Entry := ⟨"source", "current", 1, { type := "gettable" }⟩

/-- Witness for C1 at a concrete two-entry configuration. -/
theorem claim1_gettable_tiebreak_witness :
    ∃ s, initializeScript false none [entryDynGettable, entryGettable] = .ok s ∧
      (("topgate", "voltage") ∈ s.gettable_parameters ∧
       ("topgate", "voltage") ∉ s.dynamic_parameters ∧
       ∀ sw ∈ s.dynamic_sweeps, sw.channel ≠ entryDynGettable.channel) := by
  have hok : initializeScript false none [entryDynGettable, entryGettable] =
      .ok { gettable_parameters := [("topgate", "voltage"), ("source", "current")],
            gettable_channels := [0, 1] } := by rfl
  exact ⟨_, hok,
    claim1_gettable_tiebreak (e := entryDynGettable) hok (by decide) (by decide) (by decide)
      (by decide) (by decide)⟩

/-! ## Claim C2 -/

/-- C2 counterexample: `buffer_settings = {num_points: 5,
sampling_rate: 10}` — both specification modes partially supplied —
does not raise: `_set_buffered_num_points` resolves the count to 5,
contradicting the claimed `OverdeterminedBufferSpec` error. -/
theorem claim2_counterexample :
    setBufferedNumPoints ⟨some 5, some 10, none⟩ = .ok (some 5) ∧
    ∀ msg, setBufferedNumPoints ⟨some 5, some 10, none⟩ ≠ .error msg := by
  refine ⟨rfl, fun msg h => ?_⟩
  have h0 : setBufferedNumPoints ⟨some 5, some 10, none⟩ = .ok (some 5) := rfl
  rw [h0] at h
  exact Except.noConfusion h

/-- C2 amended: the overdetermination error is raised exactly when
all three keys `num_points`, `sampling_rate` and `burst_duration` are
present; `num_points` together with only one member of the pair is
accepted, and the truthy `num_points` wins (the concrete
`{num_points: 5, sampling_rate: 10}` resolves to 5). -/
theorem claim2_amended :
    (∀ bs : BufferSettings,
      (∃ msg, setBufferedNumPoints bs = .error msg) ↔
        (bs.num_points.isSome ∧ bs.sampling_rate.isSome ∧ bs.burst_duration.isSome)) ∧
    setBufferedNumPoints ⟨some 5, some 10, none⟩ = .ok (some 5) := by
  refine ⟨?_, rfl⟩
  intro bs
  constructor
  · rintro ⟨msg, hmsg⟩
    unfold setBufferedNumPoints at hmsg
    split at hmsg
    · next hc =>
      simp only [Bool.and_eq_true] at hc
      exact ⟨hc.2, hc.1.1, hc.1.2⟩
    · split at hmsg
      · exact Except.noConfusion hmsg
      · split at hmsg
        · exact Except.noConfusion hmsg
        · exact Except.noConfusion hmsg
  · rintro ⟨hnp, hsr, hbd⟩
    refine ⟨"You cannot define sampling_rate, burst_duration and num_points at the same time", ?_⟩
    unfold setBufferedNumPoints
    rw [if_pos (by simp [hnp, hsr, hbd])]

/-! ## Claim C10 -/

/-- C10 counterexample: with `num_points = 0` (falsy) and both pair
keys present, resolution does not fall through to the pair — the
all-three-keys overdetermination check counts the key regardless of
its value and raises. -/
theorem claim10_counterexample :
    setBufferedNumPoints ⟨some 0, some 10, some 2⟩ =
      .error "You cannot define sampling_rate, burst_duration and num_points at the same time" ∧
    ∀ o, setBufferedNumPoints ⟨some 0, some 10, some 2⟩ ≠ .ok o := by
  refine ⟨rfl, fun o h => ?_⟩
  have h0 : setBufferedNumPoints ⟨some 0, some 10, some 2⟩ =
      .error "You cannot define sampling_rate, burst_duration and num_points at the same time" :=
    rfl
  rw [h0] at h
  exact Except.noConfusion h

/-- C10 amended: a falsy `num_points` entry never sets the buffered
point count, but its key still participates in the overdetermination
check: with both pair keys present the error is raised, and in every
other case the count stays unset — the falsy value never reaches the
pair fallback. -/
theorem claim10_amended (sr bd : Option ℚ) :
    setBufferedNumPoints ⟨some 0, sr, bd⟩ =
      if sr.isSome && bd.isSome then
        .error "You cannot define sampling_rate, burst_duration and num_points at the same time"
      else .ok none := by
  cases sr <;> cases bd <;> simp [setBufferedNumPoints]

/-! ## Claim C3 -/

/-- C3 counterexample: in buffered mode with the global count
resolved to 100, a dynamic parameter declaring only `start` and
`stop` does not get a 100-point trajectory — the buffered `try`
branch also reads `delay`, whose absence sends control to the
setpoints fallback, and the missing `setpoints` key escapes as a
`KeyError`, so `initialize` raises instead of producing a sweep. -/
theorem claim3_counterexample :
    initializeScript true (some 100)
        [⟨"topgate", "voltage", 0, { type := "dynamic", start := some 0, stop := some 1 }⟩] =
      .error (.keyError "setpoints") ∧
    ∀ s, initializeScript true (some 100)
        [⟨"topgate", "voltage", 0, { type := "dynamic", start := some 0, stop := some 1 }⟩] ≠
      .ok s := by
  refine ⟨rfl, fun s h => ?_⟩
  have h0 : initializeScript true (some 100)
      [⟨"topgate", "voltage", 0, { type := "dynamic", start := some 0, stop := some 1 }⟩] =
      .error (.keyError "setpoints") := rfl
  rw [h0] at h
  exact Except.noConfusion h

/-- C3 amended: in buffered mode every generated sweep is a
`LinSweep` with exactly the globally resolved point count (any
parameter-local `num_points` is ignored); the endpoints come from
`(start, stop)` when `start`, `stop` and `delay` are all declared,
and otherwise from the first and last declared setpoints with the
delay defaulting to zero — a parameter with only `start`/`stop` and
no `delay` or `setpoints` makes `initialize` raise instead. -/
theorem claim3_amended {n : ℕ} {entries : List Entry} {s : InitState}
    (hok : initializeScript true (some n) entries = .ok s) :
    (∀ sw ∈ s.dynamic_sweeps, ∃ a b d, sw = .lin sw.channel a b n d) ∧
    (∀ e ∈ entries, hasRole e.props.type "gettable" = false →
      hasRole e.props.type "dynamic" = true →
      (∀ a b d, e.props.start = some a → e.props.stop = some b → e.props.delay = some d →
        SweepSpec.lin e.channel a b n d ∈ s.dynamic_sweeps) ∧
      ((e.props.start = none ∨ e.props.stop = none ∨ e.props.delay = none) →
        ∀ l, e.props.setpoints = some l → l ≠ [] →
        ∃ a b, l.head? = some a ∧ l.getLast? = some b ∧
          SweepSpec.lin e.channel a b n (e.props.delay.getD 0) ∈ s.dynamic_sweeps)) := by
  obtain ⟨-, -, -, hS, -⟩ := initializeScript_ok_components hok
  constructor
  · intro sw hsw
    rw [hS] at hsw
    obtain ⟨e', he', hc⟩ := List.mem_flatMap.mp hsw
    obtain ⟨-, -, hb⟩ := sweepContrib_mem hc
    obtain ⟨a, b, n', d, hn, hsw'⟩ := buildSweep_buffered_shape hb
    obtain rfl : n = n' := Option.some.inj hn
    exact ⟨a, b, d, by rw [hsw']; rfl⟩
  · intro e he hget hdyn
    constructor
    · intro a b d ha hb hd
      rw [hS]
      refine List.mem_flatMap.mpr ⟨e, he, ?_⟩
      unfold sweepContrib
      rw [if_pos (by simp [hget, hdyn]), buildSweep_buffered_startStopDelay ha hb hd]
      simp
    · intro hmiss l hsp hne
      obtain ⟨a, b, ha, hb, hbs⟩ :=
        @buildSweep_buffered_fallback e.props e.channel n l hmiss hsp hne
      refine ⟨a, b, ha, hb, ?_⟩
      rw [hS]
      refine List.mem_flatMap.mpr ⟨e, he, ?_⟩
      unfold sweepContrib
      rw [if_pos (by simp [hget, hdyn]), hbs]
      simp

/-- A buffered dynamic parameter declaring start, stop and delay. -/
def entryBufferedDyn : Entry :=
  ⟨"topgate", "voltage", 0,
    { type := "dynamic", start := some 0, stop := some 1, delay := some 1 }⟩

/-- Witness for C3 (amended) at a concrete one-entry configuration:
the generated trajectory is the 100-point `LinSweep` from 0 to 1. -/
theorem claim3_amended_witness :
    ∃ s, initializeScript true (some 100) [entryBufferedDyn] = .ok s ∧
      SweepSpec.lin 0 0 1 100 1 ∈ s.dynamic_sweeps := by
  have hok : initializeScript true (some 100) [entryBufferedDyn] =
      .ok { dynamic_parameters := [("topgate", "voltage")], dynamic_channels := [0],
            dynamic_sweeps := [.lin 0 0 1 100 1], ramps := [(0, 0)] } := by rfl
  exact ⟨_, hok,
    ((claim3_amended hok).2 entryBufferedDyn (by decide) (by decide) (by decide)).1
      0 1 1 rfl rfl rfl⟩

/-! ## Claim C6 -/

/-- On a channel-nodup entry list, applying the reset ramps lands an
entry's channel on that entry's own contribution. -/
theorem applyRamps_reset_at {entries : List Entry} {e : Entry} (he : e ∈ entries)
    (hchs : (entries.map Entry.channel).Nodup) (v : ℕ → ℚ) {t : ℚ}
    (hne : resetContrib e = [(e.channel, t)]) :
    applyRamps (entries.flatMap resetContrib) v e.channel = t := by
  obtain ⟨l₁, l₂, rfl⟩ := List.append_of_mem he
  have hnotl₂ : e.channel ∉ l₂.map Entry.channel := by
    rw [List.map_append, List.map_cons] at hchs
    have h2 := (List.nodup_append.mp hchs).2.1
    exact (List.nodup_cons.mp h2).1
  have hout : e.channel ∉ (l₂.flatMap resetContrib).map Prod.fst := by
    intro hmem
    obtain ⟨r, hr, hr1⟩ := List.mem_map.mp hmem
    obtain ⟨e', he', hre'⟩ := List.mem_flatMap.mp hr
    have : r.1 = e'.channel := resetContrib_channel hre'
    exact hnotl₂ (List.mem_map.mpr ⟨e', he', by rw [← this, hr1]⟩)
  rw [List.flatMap_append, List.flatMap_cons, hne, ← List.append_assoc,
    applyRamps_append, applyRamps_notMem _ _ _ hout, applyRamps_append,
    applyRamps_single]

/-- C6: both `initialize` and `reset` resolve a dynamic parameter's
target through the priority chain `value → start → setpoints[0]`
(first present key wins; all three absent raises), and after
`initialize` a `reset` restores every static channel to its declared
value and every dynamic channel to the chain target — for any channel
valuation left behind by the sweeps run in between. -/
theorem claim6_priority_chain_and_restore
    {buffered : Bool} {bnp : Option ℕ} {entries : List Entry} {sInit : InitState}
    {rs : List (ℕ × ℚ)}
    (hinit : initializeScript buffered bnp entries = .ok sInit)
    (hreset : resetRamps entries = .ok rs)
    (hchs : (entries.map Entry.channel).Nodup)
    {e : Entry} (he : e ∈ entries) :
    (∀ (p : Props) (v : ℚ),
      (p.value = some v → chainResolve p = .ok v) ∧
      (p.value = none → p.start = some v → chainResolve p = .ok v) ∧
      (p.value = none → p.start = none → ∀ l, p.setpoints = some l → l.head? = some v →
        chainResolve p = .ok v)) ∧
    (∀ p : Props, p.value = none → p.start = none → p.setpoints = none →
      chainResolve p = .error (.keyError "setpoints")) ∧
    (∀ v : ℕ → ℚ,
      (hasRole e.props.type "static" = true → ∀ w, e.props.value = some w →
        applyRamps rs v e.channel = w) ∧
      (hasRole e.props.type "static" = false → hasRole e.props.type "dynamic" = true →
        ∀ t, chainResolve e.props = .ok t → applyRamps rs v e.channel = t)) := by
  refine ⟨?_, ?_, ?_⟩
  · intro p v
    refine ⟨fun hv => ?_, fun hv hs => ?_, fun hv hs l hl hh => ?_⟩
    · simp [chainResolve, catchKeyError, getKey, hv]
    · simp [chainResolve, catchKeyError, getKey, hv, hs]
    · simp [chainResolve, catchKeyError, getKey, hv, hs, hl, Bind.bind, Except.bind, hh]
  · intro p hv hs hsp
    simp [chainResolve, catchKeyError, getKey, hv, hs, hsp, Bind.bind, Except.bind]
  · intro v
    have hrs : rs = entries.flatMap resetContrib := resetRamps_ok_eq hreset
    constructor
    · intro hst w hw
      rw [hrs]
      exact applyRamps_reset_at he hchs v
        (by unfold resetContrib; rw [if_pos hst, hw])
    · intro hst hdyn t ht
      rw [hrs]
      exact applyRamps_reset_at he hchs v
        (by unfold resetContrib; rw [if_neg (by simp [hst]), if_pos hdyn, ht])

/-- A static parameter at its declared value, for the C6 witness. -/
def eStaticC6 : Entry := ⟨"g1", "voltage", 0, { type := "static", value := some 3 }⟩

/-- A dynamic parameter with a declared start value (and setpoints so
that the unbuffered sweep builds), for the C6 witness. -/
def eDynC6 : Entry :=
  ⟨"g2", "voltage", 1, { type := "dynamic", start := some 2, setpoints := some [2, 5] }⟩

/-- Witness for C6: after a concrete initialize-then-reset, the reset
ramps drive the static channel back to its value 3 and the dynamic
channel back to its start 2, from an arbitrary stomped valuation. -/
theorem claim6_priority_chain_and_restore_witness :
    ∃ s rs, initializeScript false none [eStaticC6, eDynC6] = .ok s ∧
      resetRamps [eStaticC6, eDynC6] = .ok rs ∧
      applyRamps rs (fun _ => 99) 0 = 3 ∧ applyRamps rs (fun _ => 99) 1 = 2 := by
  have hinit : initializeScript false none [eStaticC6, eDynC6] =
      .ok { static_parameters := [("g1", "voltage")],
            dynamic_parameters := [("g2", "voltage")], dynamic_channels := [1],
            dynamic_sweeps := [.custom 1 [2, 5] 0],
            ramps := [(0, 3), (0, 3), (1, 2)] } := by rfl
  have hreset : resetRamps [eStaticC6, eDynC6] = .ok [(0, 3), (1, 2)] := by rfl
  have h1 := (claim6_priority_chain_and_restore (e := eStaticC6) hinit hreset (by decide)
    (by decide)).2.2 (fun _ => 99)
  have h2 := (claim6_priority_chain_and_restore (e := eDynC6) hinit hreset (by decide)
    (by decide)).2.2 (fun _ => 99)
  exact ⟨_, _, hinit, hreset, h1.1 (by decide) 3 rfl, h2.2 (by decide) (by decide) 2 rfl⟩

/-! ## Claim C9 -/

/-- C9: `reset` re-applies positioning only — after it, the gettable
partition, the break-condition list, the sweep plan, the buffer set
and every buffer's subscription state are exactly as before the
call; classification is not re-run and buffers are not
re-subscribed. -/
theorem claim9_reset_frame {entries : List Entry} {st st' : ScriptState}
    (h : resetScript entries st = .ok st') :
    st'.collections.gettable_parameters = st.collections.gettable_parameters ∧
    st'.collections.break_conditions = st.collections.break_conditions ∧
    st'.collections.dynamic_sweeps = st.collections.dynamic_sweeps ∧
    st'.buffers = st.buffers ∧
    st'.subscriptions = st.subscriptions := by
  unfold resetScript at h
  cases hr : resetRamps entries with
  | error err =>
    rw [hr] at h
    simp [Except.map] at h
  | ok rs =>
    rw [hr] at h
    simp only [Except.map, Except.ok.injEq] at h
    subst h
    exact ⟨rfl, rfl, rfl, rfl, rfl⟩

/-- Witness for C9 on a concrete populated state: everything but the
valuation survives a reset untouched. -/
theorem claim9_reset_frame_witness :
    ∃ st', resetScript [eStaticC6]
        ⟨fun _ => 0,
         { gettable_parameters := [("g", "current")], break_conditions := [(7, "x < 1")],
           dynamic_sweeps := [.custom 1 [1] 0] },
         ["mfli1"], [("mfli1", ["current"])]⟩ = .ok st' ∧
      (st'.collections.gettable_parameters = [("g", "current")] ∧
       st'.collections.break_conditions = [(7, "x < 1")] ∧
       st'.collections.dynamic_sweeps = [.custom 1 [1] 0] ∧
       st'.buffers = ["mfli1"] ∧ st'.subscriptions = [("mfli1", ["current"])]) := by
  have h : resetScript [eStaticC6]
      ⟨fun _ => 0,
       { gettable_parameters := [("g", "current")], break_conditions := [(7, "x < 1")],
         dynamic_sweeps := [.custom 1 [1] 0] },
       ["mfli1"], [("mfli1", ["current"])]⟩ =
      .ok ⟨applyRamps [(0, 3)] fun _ => 0,
           { gettable_parameters := [("g", "current")], break_conditions := [(7, "x < 1")],
             dynamic_sweeps := [.custom 1 [1] 0] },
           ["mfli1"], [("mfli1", ["current"])]⟩ := rfl
  exact ⟨_, h, claim9_reset_frame h⟩

/-! ## Claim C8: the lifecycle hook wrapper -/

/-- Keyword arguments: an ordered association list from names to the
boolean switch values the hooks consume (non-switch keywords pass
through untouched). -/
def lookupKw (kw : List (String × Bool)) (k : String) (d : Bool) : Bool :=
  match kw.find? (fun p => decide (p.1 = k)) with
  | some p => p.2
  | none => d

/-- The kwargs `create_hook` forwards to the wrapped routine: the
original kwargs minus the hook's own named keyword (its switch),
which `sig.bind` absorbed. -/
def stripKw (k : String) (kw : List (String × Bool)) : List (String × Bool) :=
  kw.filter fun p => decide (p.1 ≠ k)

/-- One lifecycle hook: its keyword-only enable/disable switch and
its body, which either succeeds with a new state or fails — the
source hooks wrap their bodies in `try/except` and print the
failure, so a failing body leaves the state unchanged. -/
structure LifecycleHook (σ : Type) where
  switch : String
  body : σ → Option σ

/-- Running a hook as the source hooks do: consult the switch (absent
means enabled, the Python default `True`), run the body, and swallow
a failure. -/
def runHook {σ : Type} (h : LifecycleHook σ) (st : σ) (kw : List (String × Bool)) : σ :=
  if lookupKw kw h.switch true then
    match h.body st with
    | some st' => st'
    | none => st
  else st

/-- `create_hook(func, hook)`: call the hook on the full arguments,
then call `func` on the arguments minus the keyword the hook's
signature consumed. -/
def createHook {σ ρ : Type} (func : σ → List (String × Bool) → ρ) (h : LifecycleHook σ) :
    σ → List (String × Bool) → ρ :=
  fun st kw => func (runHook h st kw) (stripKw h.switch kw)

theorem find?_stripKw_self (k : String) :
    ∀ kw : List (String × Bool), (stripKw k kw).find? (fun p => decide (p.1 = k)) = none
  | [] => rfl
  | p :: kw => by
    by_cases hp : p.1 = k
    · simp only [stripKw, List.filter_cons, hp]
      simpa [stripKw] using find?_stripKw_self k kw
    · simp only [stripKw, List.filter_cons, decide_not, hp]
      simpa [stripKw, List.find?_cons, hp] using find?_stripKw_self k kw

theorem find?_stripKw_other (k k' : String) (hkk : k' ≠ k) :
    ∀ kw : List (String × Bool),
      (stripKw k kw).find? (fun p => decide (p.1 = k')) =
        kw.find? (fun p => decide (p.1 = k'))
  | [] => rfl
  | p :: kw => by
    by_cases hp : p.1 = k
    · have hp' : p.1 ≠ k' := by rw [hp]; exact fun hh => hkk hh.symm
      simp only [stripKw, List.filter_cons, hp]
      simpa [stripKw, List.find?_cons, hp'] using find?_stripKw_other k k' hkk kw
    · by_cases hq : p.1 = k'
      · simp [stripKw, List.filter_cons, hp, List.find?_cons, hq, hkk]
      · simp only [stripKw, List.filter_cons, decide_not, hp]
        simpa [stripKw, List.find?_cons, hp, hq] using find?_stripKw_other k k' hkk kw

/-- C8: each hook wrapped around the run routine is instrumentation,
not control flow — a failing hook body changes nothing and the
wrapped routine (and every other hook) still executes — and each
hook's keyword switch is stripped before forwarding: the wrapped
routine never sees a consumed switch, while unrelated keywords pass
through unchanged. -/
theorem claim8_hook_isolation_and_stripping {σ ρ : Type}
    (run3 : σ → List (String × Bool) → ρ) (h₁ h₂ h₃ : LifecycleHook σ)
    (st : σ) (kw : List (String × Bool)) :
    (∀ (func : σ → List (String × Bool) → ρ) (h : LifecycleHook σ),
      h.body st = none → createHook func h st kw = func st (stripKw h.switch kw)) ∧
    (∀ k d, lookupKw (stripKw k kw) k d = d) ∧
    (∀ k k', k' ≠ k →
      (stripKw k kw).find? (fun p => decide (p.1 = k')) =
        kw.find? (fun p => decide (p.1 = k'))) ∧
    (createHook (createHook (createHook run3 h₁) h₂) h₃ st kw =
      run3 (runHook h₁ (runHook h₂ (runHook h₃ st kw) (stripKw h₃.switch kw))
              (stripKw h₂.switch (stripKw h₃.switch kw)))
           (stripKw h₁.switch (stripKw h₂.switch (stripKw h₃.switch kw)))) ∧
    (∀ p ∈ stripKw h₁.switch (stripKw h₂.switch (stripKw h₃.switch kw)),
      p.1 ≠ h₁.switch ∧ p.1 ≠ h₂.switch ∧ p.1 ≠ h₃.switch) := by
  refine ⟨?_, ?_, ?_, rfl, ?_⟩
  · intro func h hfail
    unfold createHook runHook
    rw [hfail]
    split <;> rfl
  · intro k d
    unfold lookupKw
    rw [find?_stripKw_self]
  · intro k k' hkk
    exact find?_stripKw_other k k' hkk kw
  · intro p hp
    unfold stripKw at hp
    have h1 := List.of_mem_filter hp
    have hp2 := List.mem_of_mem_filter hp
    have h2 := List.of_mem_filter hp2
    have hp3 := List.mem_of_mem_filter hp2
    have h3 := List.of_mem_filter hp3
    exact ⟨by simpa using h1, by simpa using h2, by simpa using h3⟩

/-- Witness for C8 at concrete data: a failing datetime hook leaves
the state alone, the routine still runs, and the three switches are
gone from the forwarded kwargs while a user keyword survives. -/
theorem claim8_hook_isolation_and_stripping_witness :
    (∀ (func : ℕ → List (String × Bool) → ℕ) (h : LifecycleHook ℕ),
      h.body 5 = none →
      createHook func h 5 [("add_datetime_to_metadata", true), ("user_opt", false)] =
        func 5 (stripKw h.switch [("add_datetime_to_metadata", true), ("user_opt", false)])) ∧
    (∀ k d, lookupKw
      (stripKw k [("add_datetime_to_metadata", true), ("user_opt", false)]) k d = d) := by
  have h := claim8_hook_isolation_and_stripping (fun st _ => st)
    ⟨"insert_metadata_into_db", fun _ => none⟩
    ⟨"add_data_to_metadata", fun st => some st⟩
    ⟨"add_datetime_to_metadata", fun st => some st⟩
    5 [("add_datetime_to_metadata", true), ("user_opt", false)]
  exact ⟨h.1, h.2.1⟩

/-! ## Buffers: SR830 and MFLI subscription state -/

/-- A qcodes parameter as the buffers see it: its `name` (used by the
SR830 channel tables and as the result key) and its `label` (used by
the MFLI to locate the demodulator sample node). -/
structure BufParam where
  name : String
  label : String
  deriving DecidableEq, Repr

/-- The SR830 display names readable through channel 1. -/
def ch1Names : List String := ["X", "R", "X Noise", "aux_in1", "aux_in2"]

/-- The SR830 display names readable through channel 2. -/
def ch2Names : List String := ["Y", "Phase", "Y Noise", "aux_in3", "aux_in4"]

/-- `SR830Buffer.subscribe` for one parameter: pick the channel slot
by name, evict every parameter currently occupying that slot
(`difference_update`), and add the new one; an unknown name raises. -/
def sr830SubscribeOne (subscribed : Finset BufParam) (p : BufParam) :
    Except String (Finset BufParam) :=
  if p.name ∈ ch1Names then
    .ok (insert p (subscribed.filter fun q => q.name ∉ ch1Names))
  else if p.name ∈ ch2Names then
    .ok (insert p (subscribed.filter fun q => q.name ∉ ch2Names))
  else
    .error ("Parameter " ++ p.name ++ " can not be buffered.")

/-- `SR830Buffer.subscribe` over a parameter list. -/
def sr830Subscribe (subscribed : Finset BufParam) (ps : List BufParam) :
    Except String (Finset BufParam) :=
  ps.foldlM sr830SubscribeOne subscribed

/-- `SR830Buffer.is_subscribed`. -/
def sr830IsSubscribed (subscribed : Finset BufParam) (p : BufParam) : Bool :=
  decide (p ∈ subscribed)

/-- The MFLI buffer's subscription state: the demod sample nodes
already subscribed and the parameter list, appended in lockstep. -/
structure MFLIState where
  sampleNodes : List String := []
  subscribedParams : List BufParam := []
  deriving DecidableEq, Repr

/-- The daq node for a parameter:
`demods[channel].sample.__getattr__(parameter.label)` — one node per
distinct label. -/
def mfliNode (p : BufParam) : String := p.label

/-- `MFLIBuffer.subscribe` for one parameter: only if the node is not
yet subscribed, append the parameter and its node; an occupied node
leaves the state unchanged. -/
def mfliSubscribeOne (st : MFLIState) (p : BufParam) : MFLIState :=
  if mfliNode p ∈ st.sampleNodes then st
  else ⟨st.sampleNodes ++ [mfliNode p], st.subscribedParams ++ [p]⟩

/-- `MFLIBuffer.subscribe` over a parameter list. -/
def mfliSubscribe (st : MFLIState) (ps : List BufParam) : MFLIState :=
  ps.foldl mfliSubscribeOne st

/-- `MFLIBuffer.is_subscribed`. -/
def mfliIsSubscribed (st : MFLIState) (p : BufParam) : Bool :=
  decide (p ∈ st.subscribedParams)

/-! ## Claim C4 -/

/-- C4 counterexample: on the MFLI buffer, subscribing parameter B to
the node slot already held by parameter A (same label, hence same
demod sample node) is silently ignored — afterwards A is still
subscribed and B is not, the opposite of last-write-wins. -/
theorem claim4_counterexample :
    mfliIsSubscribed
      (mfliSubscribe (mfliSubscribe ⟨[], []⟩ [⟨"current", "x"⟩]) [⟨"voltage", "x"⟩])
      ⟨"voltage", "x"⟩ = false ∧
    mfliIsSubscribed
      (mfliSubscribe (mfliSubscribe ⟨[], []⟩ [⟨"current", "x"⟩]) [⟨"voltage", "x"⟩])
      ⟨"current", "x"⟩ = true := by decide

/-- C4 amended: each physical channel slot holds at most one active
subscription on both buffers, but the eviction policies differ — the
SR830 is last-write-wins (subscribing B to a slot occupied by A
succeeds, evicts A, and leaves the slot holding exactly B), while the
MFLI is first-write-wins (subscribing B to an occupied node is a
no-op: A stays subscribed and B never becomes subscribed). -/
theorem claim4_amended :
    (∀ (s : Finset BufParam) (A B : BufParam), A ∈ s → A.name ∈ ch1Names →
      B.name ∈ ch1Names → A ≠ B →
      ∃ s', sr830SubscribeOne s B = .ok s' ∧
        sr830IsSubscribed s' B = true ∧ sr830IsSubscribed s' A = false ∧
        s'.filter (fun q => q.name ∈ ch1Names) = {B}) ∧
    (∀ (s : Finset BufParam) (A B : BufParam), A ∈ s → A.name ∈ ch2Names →
      B.name ∈ ch2Names → B.name ∉ ch1Names → A ≠ B →
      ∃ s', sr830SubscribeOne s B = .ok s' ∧
        sr830IsSubscribed s' B = true ∧ sr830IsSubscribed s' A = false ∧
        s'.filter (fun q => q.name ∈ ch2Names) = {B}) ∧
    (∀ (st : MFLIState) (A B : BufParam), A ∈ st.subscribedParams →
      mfliNode B ∈ st.sampleNodes → B ∉ st.subscribedParams →
      mfliSubscribe st [B] = st ∧
      mfliIsSubscribed (mfliSubscribe st [B]) A = true ∧
      mfliIsSubscribed (mfliSubscribe st [B]) B = false) := by
  refine ⟨?_, ?_, ?_⟩
  · intro s A B hA hAn hBn hAB
    refine ⟨insert B (s.filter fun q => q.name ∉ ch1Names),
      by simp [sr830SubscribeOne, hBn], ?_, ?_, ?_⟩
    · simp [sr830IsSubscribed]
    · simp only [sr830IsSubscribed, decide_eq_false_iff_not, Finset.mem_insert,
        Finset.mem_filter]
      rintro (rfl | ⟨-, hnot⟩)
      · exact hAB rfl
      · exact hnot hAn
    · rw [Finset.filter_insert, if_pos hBn]
      have hempty : (s.filter fun q => q.name ∉ ch1Names).filter
          (fun q => q.name ∈ ch1Names) = ∅ := by
        ext q
        simp only [Finset.mem_filter, Finset.not_mem_empty, iff_false]
        rintro ⟨⟨-, hq1⟩, hq2⟩
        exact hq1 hq2
      rw [hempty]
      rfl
  · intro s A B hA hAn hBn hBn1 hAB
    refine ⟨insert B (s.filter fun q => q.name ∉ ch2Names),
      by simp [sr830SubscribeOne, hBn, hBn1], ?_, ?_, ?_⟩
    · simp [sr830IsSubscribed]
    · simp only [sr830IsSubscribed, decide_eq_false_iff_not, Finset.mem_insert,
        Finset.mem_filter]
      rintro (rfl | ⟨-, hnot⟩)
      · exact hAB rfl
      · exact hnot hAn
    · rw [Finset.filter_insert, if_pos hBn]
      have hempty : (s.filter fun q => q.name ∉ ch2Names).filter
          (fun q => q.name ∈ ch2Names) = ∅ := by
        ext q
        simp only [Finset.mem_filter, Finset.not_mem_empty, iff_false]
        rintro ⟨⟨-, hq1⟩, hq2⟩
        exact hq1 hq2
      rw [hempty]
      rfl
  · intro st A B hA hB hBnot
    have hid : mfliSubscribe st [B] = st := by
      simp [mfliSubscribe, mfliSubscribeOne, hB]
    refine ⟨hid, ?_, ?_⟩
    · rw [hid]
      simp [mfliIsSubscribed, hA]
    · rw [hid]
      simp [mfliIsSubscribed, hBnot]

/-- Witness for C4 (amended): concrete eviction of X by R in the
SR830 channel-1 slot, and the concrete MFLI no-op on an occupied
node. -/
theorem claim4_amended_witness :
    (∃ s', sr830SubscribeOne {(⟨"X", "X"⟩ : BufParam)} ⟨"R", "R"⟩ = .ok s' ∧
      sr830IsSubscribed s' ⟨"R", "R"⟩ = true ∧ sr830IsSubscribed s' ⟨"X", "X"⟩ = false ∧
      s'.filter (fun q => q.name ∈ ch1Names) = {⟨"R", "R"⟩}) ∧
    (mfliSubscribe ⟨["x"], [⟨"current", "x"⟩]⟩ [⟨"voltage", "x"⟩] =
        ⟨["x"], [⟨"current", "x"⟩]⟩ ∧
      mfliIsSubscribed (mfliSubscribe ⟨["x"], [⟨"current", "x"⟩]⟩ [⟨"voltage", "x"⟩])
        ⟨"current", "x"⟩ = true ∧
      mfliIsSubscribed (mfliSubscribe ⟨["x"], [⟨"current", "x"⟩]⟩ [⟨"voltage", "x"⟩])
        ⟨"voltage", "x"⟩ = false) := by
  constructor
  · exact claim4_amended.1 {⟨"X", "X"⟩} ⟨"X", "X"⟩ ⟨"R", "R"⟩ (by decide) (by decide)
      (by decide) (by decide)
  · exact claim4_amended.2.2 ⟨["x"], [⟨"current", "x"⟩]⟩ ⟨"current", "x"⟩ ⟨"voltage", "x"⟩
      (by decide) (by decide) (by decide)

/-! ## Buffer readout: SR830 and MFLI `read` -/

/-- Python dict assignment `d[k] = v`: update in place if the key
exists, append otherwise. -/
def dictInsert {α : Type} (d : List (String × α)) (k : String) (v : α) :
    List (String × α) :=
  if (d.find? fun kv => decide (kv.1 = k)).isSome then
    d.map fun kv => if kv.1 = k then (k, v) else kv
  else d ++ [(k, v)]

theorem find?_map_preserve {α : Type} (k k' : String) (v : α) (hkk : k' ≠ k) :
    ∀ d : List (String × α),
      (d.map fun kv => if kv.1 = k then (k, v) else kv).find?
          (fun kv => decide (kv.1 = k')) =
        d.find? (fun kv => decide (kv.1 = k'))
  | [] => rfl
  | kv :: d => by
    by_cases h : kv.1 = k
    · have h' : ¬kv.1 = k' := by rw [h]; exact fun hh => hkk hh.symm
      have hk' : ¬(k = k') := fun hh => hkk hh.symm
      rw [List.map_cons, if_pos h,
        List.find?_cons_of_neg _ (by simp [hk']),
        List.find?_cons_of_neg _ (by simp [h'])]
      exact find?_map_preserve k k' v hkk d
    · by_cases hq : kv.1 = k'
      · rw [List.map_cons, if_neg h,
          List.find?_cons_of_pos _ (by simp [hq]),
          List.find?_cons_of_pos _ (by simp [hq])]
      · rw [List.map_cons, if_neg h,
          List.find?_cons_of_neg _ (by simp [hq]),
          List.find?_cons_of_neg _ (by simp [hq])]
        exact find?_map_preserve k k' v hkk d

theorem find?_append_single {α : Type} (k k' : String) (v : α) (hkk : k' ≠ k) :
    ∀ d : List (String × α),
      (d ++ [(k, v)]).find? (fun kv => decide (kv.1 = k')) =
        d.find? (fun kv => decide (kv.1 = k'))
  | [] => by
    have hk' : ¬(k = k') := fun hh => hkk hh.symm
    rw [List.nil_append, List.find?_cons_of_neg _ (by simp [hk'])]
  | kv :: d => by
    by_cases hq : kv.1 = k'
    · rw [List.cons_append,
        List.find?_cons_of_pos _ (by simp [hq]),
        List.find?_cons_of_pos _ (by simp [hq])]
    · rw [List.cons_append,
        List.find?_cons_of_neg _ (by simp [hq]),
        List.find?_cons_of_neg _ (by simp [hq])]
      exact find?_append_single k k' v hkk d

/-- Updating key `k` does not move any other key. -/
theorem find?_dictInsert_other {α : Type} (d : List (String × α)) (k k' : String) (v : α)
    (hkk : k' ≠ k) :
    (dictInsert d k v).find? (fun kv => decide (kv.1 = k')) =
      d.find? (fun kv => decide (kv.1 = k')) := by
  unfold dictInsert
  split
  · exact find?_map_preserve k k' v hkk d
  · exact find?_append_single k k' v hkk d

/-- The keys after a dict assignment: the old keys plus possibly the
assigned key. -/
theorem dictInsert_mem_keys {α : Type} (d : List (String × α)) (k k' : String) (v : α) :
    k' ∈ (dictInsert d k v).map Prod.fst ↔ k' ∈ d.map Prod.fst ∨ k' = k := by
  unfold dictInsert
  split
  · next hfound =>
    have hkeys : ((d.map fun kv => if kv.1 = k then (k, v) else kv).map Prod.fst) =
        d.map Prod.fst := by
      rw [List.map_map]
      apply List.map_congr_left
      intro kv _
      by_cases h : kv.1 = k
      · simp [h]
      · simp [h]
    rw [hkeys]
    constructor
    · exact Or.inl
    · rintro (h | rfl)
      · exact h
      · obtain ⟨kv, hkv⟩ := Option.isSome_iff_exists.mp hfound
        have hpred : kv.1 = k' := by simpa using List.find?_some hkv
        have hmem := List.mem_of_find?_eq_some hkv
        exact List.mem_map.mpr ⟨kv, hmem, hpred⟩
  · simp [List.map_append]

/-- The SR830 hardware datatraces as the driver exposes them: a trace
list per display channel, or the `VisaIOError` the instrument raises
when the buffer is read while still running.  `SR830Buffer.read`
turns that `VisaIOError` into the stop-before-readout
`BufferException`. -/
structure SR830Device where
  ch1trace : Except Unit (List ℚ)
  ch2trace : Except Unit (List ℚ)

/-- One iteration of the `SR830Buffer.read` loop: select the channel
slot by parameter name and pull its datatrace; a `VisaIOError`
becomes the stop-before-readout `BufferException` (the source wraps
the whole loop in one `try`, so the first failing pull aborts with
this message).  A name in neither table would leave the Python `ch`
variable unbound — `subscribe` makes that unreachable; it is an error
here. -/
def sr830ReadParam (dev : SR830Device) (p : BufParam) : Except String (List ℚ) :=
  if p.name ∈ ch1Names then
    match dev.ch1trace with
    | .ok tr => .ok tr
    | .error _ => .error "Could not read the buffer. Buffer has to be stopped before readout."
  else if p.name ∈ ch2Names then
    match dev.ch2trace with
    | .ok tr => .ok tr
    | .error _ => .error "Could not read the buffer. Buffer has to be stopped before readout."
  else
    .error "NameError: name ch is not defined"

/-- `SR830Buffer.read`: one `data[parameter.name] = datatrace` per
subscribed parameter — and nothing else: no `timestamps` entry is
ever produced. -/
def sr830Read (dev : SR830Device) (subscribed : List BufParam) :
    Except String (List (String × List ℚ)) :=
  subscribed.foldlM
    (fun d p => (sr830ReadParam dev p).map fun tr => dictInsert d p.name tr) []

/-- A demod sample payload of the MFLI daq module: the measured
values and their timestamps. -/
structure MFLIPayload where
  value : List ℚ
  time : List ℚ

/-- One iteration of the `MFLIBuffer.read` loop: store the
parameter's values under its name, then — only if no `timestamps` key
exists yet — store the same payload's timestamps. -/
def mfliReadStep (data : String → MFLIPayload) (d : List (String × List ℚ))
    (p : BufParam) : List (String × List ℚ) :=
  let d' := dictInsert d p.name (data (mfliNode p)).value
  if (d'.find? fun kv => decide (kv.1 = "timestamps")).isSome then d'
  else dictInsert d' "timestamps" (data (mfliNode p)).time

/-- `MFLIBuffer.read` over the subscription order. -/
def mfliRead (data : String → MFLIPayload) (st : MFLIState) :
    List (String × List ℚ) :=
  st.subscribedParams.foldl (mfliReadStep data) []

/-- Inversion for a successful `Except.map`. -/
theorem exceptMap_ok {ε α β : Type} {x : Except ε α} {f : α → β} {v : β}
    (h : x.map f = .ok v) : ∃ w, x = .ok w ∧ v = f w := by
  cases x with
  | error err => simp [Except.map] at h
  | ok w => exact ⟨w, rfl, by simpa [Except.map] using h.symm⟩

/-- Keys of a successful SR830 readout come from the accumulator or
from the subscribed parameter names. -/
theorem sr830Read_keys {dev : SR830Device} :
    ∀ (subscribed : List BufParam) (d0 d : List (String × List ℚ)),
      subscribed.foldlM
          (fun d p => (sr830ReadParam dev p).map fun tr => dictInsert d p.name tr) d0 =
        .ok d →
      ∀ k ∈ d.map Prod.fst, k ∈ d0.map Prod.fst ∨ k ∈ subscribed.map BufParam.name
  | [], d0, d, h, k, hk => by
    simp only [List.foldlM_nil, Pure.pure, Except.pure, Except.ok.injEq] at h
    subst h
    exact Or.inl hk
  | p :: rest, d0, d, h, k, hk => by
    rw [List.foldlM_cons] at h
    obtain ⟨d1, hd1, hrest⟩ := exceptBind_ok h
    obtain ⟨tr, -, hins⟩ := exceptMap_ok hd1
    rcases sr830Read_keys rest d1 d hrest k hk with hin | hin
    · rw [hins] at hin
      rcases (dictInsert_mem_keys d0 p.name k tr).mp hin with hin0 | rfl
      · exact Or.inl hin0
      · exact Or.inr (by simp)
    · exact Or.inr (by simp [hin])

/-- Once a `timestamps` entry is in the dict, the rest of the MFLI
read loop preserves it. -/
theorem mfliRead_fold_ts (data : String → MFLIPayload) :
    ∀ (rest : List BufParam) (d : List (String × List ℚ)) (t : List ℚ),
      d.find? (fun kv => decide (kv.1 = "timestamps")) = some ("timestamps", t) →
      (∀ q ∈ rest, q.name ≠ "timestamps") →
      (rest.foldl (mfliReadStep data) d).find? (fun kv => decide (kv.1 = "timestamps")) =
        some ("timestamps", t)
  | [], d, t, hd, _ => hd
  | p :: rest, d, t, hd, hn => by
    rw [List.foldl_cons]
    have hpname : p.name ≠ "timestamps" := hn p (by simp)
    have hstep : (mfliReadStep data d p).find?
        (fun kv => decide (kv.1 = "timestamps")) = some ("timestamps", t) := by
      unfold mfliReadStep
      have hpres : ((dictInsert d p.name (data (mfliNode p)).value).find?
          fun kv => decide (kv.1 = "timestamps")) = some ("timestamps", t) := by
        rw [find?_dictInsert_other d p.name "timestamps" _ (fun hh => hpname hh.symm)]
        exact hd
      rw [if_pos (by rw [hpres]; rfl)]
      exact hpres
    exact mfliRead_fold_ts data rest _ t hstep fun q hq => hn q (by simp [hq])

/-! ## Claim C5 -/

/-- C5 counterexample: after stop, an SR830 read with one subscribed
parameter succeeds but returns only the parameter's trace — there is
no `timestamps` entry in the mapping, contradicting the claim for
"every buffer". -/
theorem claim5_counterexample :
    sr830Read ⟨.ok [1, 2], .ok []⟩ [⟨"X", "X"⟩] = .ok [("X", [1, 2])] ∧
    "timestamps" ∉ (([("X", [1, 2])] : List (String × List ℚ)).map Prod.fst) := by
  exact ⟨rfl, by decide⟩

/-- C5 amended: reading a still-running SR830 buffer surfaces the
device's `VisaIOError` as the stop-before-readout buffer error; a
successful SR830 read maps subscribed parameter names to traces and
never contains a `timestamps` entry; only the MFLI read adds a
`timestamps` entry, sourced from the payload of the first processed
subscribed parameter. -/
theorem claim5_amended :
    (∀ (dev : SR830Device) (p : BufParam) (rest : List BufParam),
      p.name ∈ ch1Names → dev.ch1trace = .error () →
      sr830Read dev (p :: rest) =
        .error "Could not read the buffer. Buffer has to be stopped before readout.") ∧
    (∀ (dev : SR830Device) (subscribed : List BufParam) (d : List (String × List ℚ)),
      sr830Read dev subscribed = .ok d →
      (∀ q ∈ subscribed, q.name ≠ "timestamps") →
      "timestamps" ∉ d.map Prod.fst) ∧
    (∀ (data : String → MFLIPayload) (st : MFLIState) (p : BufParam)
        (rest : List BufParam),
      st.subscribedParams = p :: rest →
      (∀ q ∈ st.subscribedParams, q.name ≠ "timestamps") →
      (mfliRead data st).find? (fun kv => decide (kv.1 = "timestamps")) =
        some ("timestamps", (data (mfliNode p)).time)) := by
  refine ⟨?_, ?_, ?_⟩
  · intro dev p rest hp htr
    unfold sr830Read
    rw [List.foldlM_cons]
    have hrp : sr830ReadParam dev p =
        .error "Could not read the buffer. Buffer has to be stopped before readout." := by
      unfold sr830ReadParam
      rw [if_pos hp, htr]
    simp [hrp, Except.map, Bind.bind, Except.bind]
  · intro dev subscribed d hok hn hmem
    rcases sr830Read_keys subscribed [] d hok "timestamps" hmem with h0 | h0
    · simp at h0
    · obtain ⟨q, hq, hqn⟩ := List.mem_map.mp h0
      exact hn q hq hqn
  · intro data st p rest hsub hn
    unfold mfliRead
    rw [hsub, List.foldl_cons]
    have hpname : p.name ≠ "timestamps" := hn p (by rw [hsub]; simp)
    have hstep : mfliReadStep data [] p =
        [(p.name, (data (mfliNode p)).value), ("timestamps", (data (mfliNode p)).time)] := by
      unfold mfliReadStep dictInsert
      simp [hpname]
    rw [hstep]
    apply mfliRead_fold_ts
    · rw [List.find?_cons_of_neg _ (by simp [hpname]),
        List.find?_cons_of_pos _ (by simp)]
    · intro q hq
      exact hn q (by rw [hsub]; simp [hq])

/-- Witness for C5 (amended) at concrete devices: the armed SR830
raises the stop-before-readout error, its stopped read returns no
`timestamps` key, and a concrete MFLI read carries the first
payload's timestamps. -/
theorem claim5_amended_witness :
    sr830Read ⟨.error (), .ok []⟩ [⟨"X", "X"⟩] =
      .error "Could not read the buffer. Buffer has to be stopped before readout." ∧
    "timestamps" ∉ (([("X", [1, 2])] : List (String × List ℚ)).map Prod.fst) ∧
    (mfliRead (fun _ => ⟨[5], [10]⟩) ⟨["x"], [⟨"current", "x"⟩]⟩).find?
        (fun kv => decide (kv.1 = "timestamps")) = some ("timestamps", [10]) := by
  refine ⟨claim5_amended.1 ⟨.error (), .ok []⟩ ⟨"X", "X"⟩ [] (by decide) rfl, ?_, ?_⟩
  · exact claim5_amended.2.1 ⟨.ok [1, 2], .ok []⟩ [⟨"X", "X"⟩] [("X", [1, 2])] rfl
      (by decide)
  · exact claim5_amended.2.2 (fun _ => ⟨[5], [10]⟩) ⟨["x"], [⟨"current", "x"⟩]⟩
      ⟨"current", "x"⟩ [] rfl (by decide)

/-! ## Claim C7: `readout_buffers` -/

/-- A possibly nested numeric array, as a buffer read returns it. -/
inductive Arr where
  | scalar (q : ℚ)
  | nested (l : List Arr)

/-- Modelled from the spec: `qtools.utils.utils.flatten_array` is
imported by `measurement.py` but the `qtools/utils` source file is
not part of the snapshot; the spec describes it as a shape-normalizing
flatten that unwraps only single-element nesting, so `[[1],[2]]`
becomes `[1,2]` while multi-element inner sequences are preserved
as-is. -/
def flatten_array : Arr → Arr
  | .nested l => .nested (l.map fun x =>
      match x with
      | .nested [y] => y
      | other => other)
  | x => x

example : flatten_array (.nested [.nested [.scalar 1], .nested [.scalar 2]]) =
    .nested [.scalar 1, .scalar 2] := rfl
example : flatten_array (.nested [.nested [.scalar 1, .scalar 2]]) =
    .nested [.nested [.scalar 1, .scalar 2]] := rfl

/-- One buffer as `readout_buffers` sees it: its identity, its
subscribed parameters in order, and what its `read()` returns once
`stop()` has been issued — a name-keyed data mapping, or the
exception `read()` raises. -/
structure AbsBuffer where
  id : String
  subscribed : List BufParam
  readResult : Except String (List (String × Arr))

/-- The inner `results.append((param, flatten_array(data[buffer][param.name])))`:
look the parameter's name up in the buffer's data and flatten; a
missing name is a `KeyError`. -/
def collectOne (data : List (String × Arr)) (p : BufParam) :
    Except String (BufParam × Arr) :=
  match data.find? fun kv => decide (kv.1 = p.name) with
  | some kv => .ok (p, flatten_array kv.2)
  | none => .error ("KeyError: " ++ p.name)

/-- What one buffer contributes to the readout: its read result,
flattened per subscribed parameter, in subscription order. -/
def bufferResults (b : AbsBuffer) : Except String (List (BufParam × Arr)) :=
  b.readResult.bind fun data => b.subscribed.mapM (collectOne data)

/-- `MeasurementScript.readout_buffers`: for each buffer `stop()` then
`read()`; accumulate (parameter, flattened data) pairs.  The first
component lists the buffers that got their `stop()` call; an
exception from `read()` propagates immediately — unchanged — so later
buffers are neither stopped nor read and no partial result list is
returned. -/
def readoutBuffers : List AbsBuffer → List String × Except String (List (BufParam × Arr))
  | [] => ([], .ok [])
  | b :: rest =>
    match bufferResults b with
    | .error msg => ([b.id], .error msg)
    | .ok res =>
      let s := readoutBuffers rest
      (b.id :: s.1, s.2.map fun more => res ++ more)

/-- A successful `collectOne` pairs the parameter itself with the
flattened data. -/
theorem collectOne_fst {data : List (String × Arr)} {p : BufParam} {r : BufParam × Arr}
    (h : collectOne data p = .ok r) : r.1 = p := by
  unfold collectOne at h
  cases hf : data.find? fun kv => decide (kv.1 = p.name) with
  | none => rw [hf] at h; exact Except.noConfusion h
  | some kv =>
    rw [hf] at h
    cases h
    rfl

theorem mapM_collectOne_fst {data : List (String × Arr)} :
    ∀ (ps : List BufParam) (res : List (BufParam × Arr)),
      ps.mapM (collectOne data) = .ok res → res.map Prod.fst = ps
  | [], res, h => by
    simp only [List.mapM_nil, Pure.pure, Except.pure, Except.ok.injEq] at h
    rw [← h]
    rfl
  | p :: ps, res, h => by
    rw [List.mapM_cons] at h
    obtain ⟨r, hr, h⟩ := exceptBind_ok h
    obtain ⟨rs, hrs, h⟩ := exceptBind_ok h
    simp only [Pure.pure, Except.pure, Except.ok.injEq] at h
    subst h
    simp [collectOne_fst hr, mapM_collectOne_fst ps rs hrs]

/-- C7 counterexample: a failing read on the second buffer aborts the
readout with the read's own exception message, which does not name
the offending buffer (the buffer id is not even a substring of the
propagated message). -/
theorem claim7_counterexample :
    readoutBuffers
      [⟨"bufA", [⟨"X", "X"⟩], .ok [("X", .scalar 1)]⟩,
       ⟨"bufB", [⟨"Y", "Y"⟩], .error "boom"⟩] = (["bufA", "bufB"], .error "boom") ∧
    ¬ List.IsInfix "bufB".toList "boom".toList := by
  exact ⟨rfl, by decide⟩

/-- C7 amended: a read failure on one buffer aborts the remainder of
the readout with no partial result; buffers stopped before (and
including) the failing one stay stopped, later ones are untouched;
the failure propagates as the failing read's own exception,
unchanged — it is not re-wrapped to name the offending buffer.  On
success the result is the ordered concatenation of per-buffer
(parameter, flattened data) pairs, one per subscribed parameter in
subscription order. -/
theorem claim7_amended :
    (∀ (good : List AbsBuffer) (bad : AbsBuffer) (rest : List AbsBuffer) (msg : String),
      (∀ b ∈ good, ∃ res, bufferResults b = .ok res) →
      bufferResults bad = .error msg →
      readoutBuffers (good ++ bad :: rest) =
        (good.map AbsBuffer.id ++ [bad.id], .error msg)) ∧
    (∀ (bs : List AbsBuffer) (rss : List (List (BufParam × Arr))),
      bs.mapM bufferResults = .ok rss →
      readoutBuffers bs = (bs.map AbsBuffer.id, .ok rss.flatten)) ∧
    (∀ (b : AbsBuffer) (res : List (BufParam × Arr)),
      bufferResults b = .ok res → res.map Prod.fst = b.subscribed) := by
  refine ⟨?_, ?_, ?_⟩
  · intro good
    induction good with
    | nil =>
      intro bad rest msg _ hbad
      simp only [List.nil_append, List.map_nil]
      unfold readoutBuffers
      rw [hbad]
    | cons g good ih =>
      intro bad rest msg hgood hbad
      obtain ⟨res, hres⟩ := hgood g (by simp)
      have hrec := ih bad rest msg (fun b hb => hgood b (by simp [hb])) hbad
      simp only [List.cons_append]
      unfold readoutBuffers
      rw [hres, hrec]
      simp [Except.map]
  · intro bs
    induction bs with
    | nil =>
      intro rss h
      simp only [List.mapM_nil, Pure.pure, Except.pure, Except.ok.injEq] at h
      rw [← h]
      rfl
    | cons b bs ih =>
      intro rss h
      rw [List.mapM_cons] at h
      obtain ⟨r, hr, h⟩ := exceptBind_ok h
      obtain ⟨rs, hrs, h⟩ := exceptBind_ok h
      simp only [Pure.pure, Except.pure, Except.ok.injEq] at h
      subst h
      unfold readoutBuffers
      rw [hr, ih rs hrs]
      simp [Except.map]
  · intro b res h
    unfold bufferResults at h
    obtain ⟨data, -, hm⟩ := exceptBind_ok h
    exact mapM_collectOne_fst b.subscribed res hm

/-- Witness for C7 (amended) at a concrete pair of buffers. -/
theorem claim7_amended_witness :
    readoutBuffers
      [⟨"bufA", [⟨"X", "X"⟩], .ok [("X", .scalar 1)]⟩,
       ⟨"bufB", [⟨"Y", "Y"⟩], .error "io fault"⟩] =
      (["bufA", "bufB"], .error "io fault") ∧
    readoutBuffers [⟨"bufA", [⟨"X", "X"⟩], .ok [("X", .nested [.nested [.scalar 7]])]⟩] =
      (["bufA"], .ok [(⟨"X", "X"⟩, .nested [.scalar 7])]) := by
  constructor
  · exact claim7_amended.1 [⟨"bufA", [⟨"X", "X"⟩], .ok [("X", .scalar 1)]⟩]
      ⟨"bufB", [⟨"Y", "Y"⟩], .error "io fault"⟩ [] "io fault"
      (fun b hb => ⟨[(⟨"X", "X"⟩, .scalar 1)], by
        rw [show b = ⟨"bufA", [⟨"X", "X"⟩], .ok [("X", .scalar 1)]⟩ by
          simpa using hb]
        rfl⟩) rfl
  · have h := claim7_amended.2.1
      [⟨"bufA", [⟨"X", "X"⟩], .ok [("X", .nested [.nested [.scalar 7]])]⟩]
      [[(⟨"X", "X"⟩, .nested [.scalar 7])]] rfl
    simpa using h

end QuMADA
